import Mathlib

/-!
Verification of the scraping/extraction logic of `selenium_webscrap.py`.

The script's `__main__` block is embedded shallowly: the DOM subtrees the
script inspects become explicit Lean structures, Python strings become
`String`, Python dicts become insertion-ordered association lists with
update-in-place semantics, and Python exceptions become `Except String`.
All definitions follow the source line by line; browser navigation, waiting
and JSON I/O are external and out of scope.
-/

/-! ## Python string primitives -/

/-- First index at which `pat` occurs as a contiguous sublist of `s`
(Python `str.index` / `str.find` on character lists). -/
def findSub (pat : List Char) : List Char → Option Nat
  | [] => if pat.isPrefixOf ([] : List Char) then some 0 else none
  | c :: t =>
    if pat.isPrefixOf (c :: t) then some 0
    else (findSub pat t).map (fun n => n + 1)

/-- Python `s.find(pat)` as an `Option` over `String`. -/
def strFind (s pat : String) : Option Nat :=
  findSub pat.data s.data

/-- Python `pat in s` (substring containment). -/
def strContains (s pat : String) : Bool :=
  (strFind s pat).isSome

/-- Python slice `s[:n]`. -/
def strTake (s : String) (n : Nat) : String :=
  ⟨s.data.take n⟩

/-- Python slice `s[n:]`. -/
def strDrop (s : String) (n : Nat) : String :=
  ⟨s.data.drop n⟩

/-- Python `str.lower`, per-character (ASCII, which is all the script meets). -/
def pyLower (s : String) : String :=
  ⟨s.data.map Char.toLower⟩

/-- Fuelled replace-all on character lists; fuel bounds the scan length. -/
def replaceL : Nat → List Char → List Char → List Char → List Char
  | 0, s, _, _ => s
  | _ + 1, [], _, _ => []
  | fuel + 1, c :: t, pat, rep =>
    if pat ≠ [] ∧ pat.isPrefixOf (c :: t) then
      rep ++ replaceL fuel (List.drop pat.length (c :: t)) pat rep
    else
      c :: replaceL fuel t pat rep

/-- Python `s.replace(pat, rep)` (all occurrences, left to right). -/
def strReplace (s pat rep : String) : String :=
  ⟨replaceL s.data.length s.data pat.data rep.data⟩

/-- Fuelled split on a nonempty separator pattern. -/
def splitL : Nat → List Char → List Char → List (List Char)
  | 0, s, _ => [s]
  | fuel + 1, s, pat =>
    match findSub pat s with
    | none => [s]
    | some i => s.take i :: splitL fuel (s.drop (i + pat.length)) pat

/-- Python `s.split(sep)` for a nonempty separator. -/
def strSplitOn (s sep : String) : List String :=
  (splitL (s.data.length + 1) s.data sep.data).map (fun l => ⟨l⟩)

/-- Decimal value of a digit list (used to model Python `int` on digit strings). -/
def digitsToNatL (l : List Char) : Nat :=
  l.foldl (fun a c => a * 10 + (c.toNat - 48)) 0

/-- Decimal value of a digit string. -/
def digitsToNat (s : String) : Nat :=
  digitsToNatL s.data

/-- Python `str.isnumeric` restricted to ASCII digits. -/
def pyIsNumeric (s : String) : Bool :=
  !s.data.isEmpty && s.data.all Char.isDigit

/-- Python `int(s)`: `none` models a `ValueError`. Handles plain digit
strings and a single leading minus sign, which covers every string the
script can pass to `int`. -/
def pyInt (s : String) : Option Int :=
  if !s.data.isEmpty ∧ s.data.all Char.isDigit then
    some (Int.ofNat (digitsToNat s))
  else if s.data.head? = some '-' ∧ !s.data.tail.isEmpty ∧ s.data.tail.all Char.isDigit then
    some (-(Int.ofNat (digitsToNatL s.data.tail)))
  else
    none

/-! ## Values and Python dicts -/

/-- A JSON-serialisable value stored in a record: Python `str`, `int` or `bool`. -/
inductive Value : Type where
  | str : String → Value
  | int : Int → Value
  | bool : Bool → Value
deriving DecidableEq, Repr

/-- Whether the dict `d` has an entry with key `k`. -/
def hasKey {α : Type} (d : List (String × α)) (k : String) : Bool :=
  d.any (fun p => p.1 == k)

/-- Python `d[k] = v` on an insertion-ordered dict: an existing key keeps its
position and gets the new value, a new key is appended. -/
def dictInsert {α : Type} (d : List (String × α)) (k : String) (v : α) :
    List (String × α) :=
  if hasKey d k then d.map (fun p => if p.1 == k then (k, v) else p)
  else d ++ [(k, v)]

/-- Python `d.get(k)`. -/
def dictLookup {α : Type} (d : List (String × α)) (k : String) : Option α :=
  (d.find? (fun p => p.1 == k)).map (fun p => p.2)

/-- A scraped record: Python dict from field name to value. -/
abbrev Record := List (String × Value)

/-- The catalog `data`: Python dict from display name to record. -/
abbrev Catalog := List (String × Record)

/-- Whether an `Except` computation succeeded. -/
def isOkE {ε α : Type} : Except ε α → Bool
  | .ok _ => true
  | .error _ => false

/-- The record of a successful item computation (empty on error; used only
to state facts about successful runs). -/
def recordOf (e : Except String (Record × Option Value)) : Record :=
  match e with
  | .ok p => p.1
  | .error _ => []

/-! ## The DOM fragments the script inspects -/

/-- An anchor element: `innerText` and `href`. -/
structure Anchor : Type where
  text : String
  href : String
deriving DecidableEq, Repr

/-- A list item (`li`) of the listing table; `anchors` are its anchor
descendants in document order, `find_element` takes the first and raises
when there is none. -/
structure LItem : Type where
  anchors : List Anchor
deriving DecidableEq, Repr

/-- An unordered list (`ul`) inside a table cell. -/
structure ULst : Type where
  items : List LItem
deriving DecidableEq, Repr

/-- A table cell (`td`). -/
structure Cell : Type where
  lists : List ULst
deriving DecidableEq, Repr

/-- A table row (`tr`). -/
structure Row : Type where
  cells : List Cell
deriving DecidableEq, Repr

/-- The listing table located by `XPATH_TABLE`. -/
structure VTable : Type where
  rows : List Row
deriving DecidableEq, Repr

/-- A `div` child of the hero container: its `data-source` attribute
(`none` when absent) and its `innerText`. -/
structure DivEl : Type where
  dataSource : Option String
  innerText : String
deriving DecidableEq, Repr

/-- The `data{i}` stat bar: `filledWidth` is the rendered width of the
nested `div[1]/div[1]` element, `none` when that element is absent. -/
structure StatBarEl : Type where
  filledWidth : Option Int
deriving DecidableEq, Repr

/-- A stat slot `i`: the `name{i}` label text together with the `data{i}`
bar. `none` at the container level models the unguarded `find_element`
raising for that index. -/
structure StatEntry : Type where
  title : String
  bar : StatBarEl
deriving DecidableEq, Repr

/-- The `img[1]` element inside an empty info value, with its
`data-image-name` attribute. -/
structure InfoImg : Type where
  dataImageName : String
deriving DecidableEq, Repr

/-- An info slot `i`: `name{i}` label text, `data{i}` value text, and the
optional nested image used when the text is empty. -/
structure InfoEntry : Type where
  title : String
  text : String
  img : Option InfoImg
deriving DecidableEq, Repr

/-- Everything the script reads from one item's detail page.
`heroAnchorHref` is the `href` of the anchor at `XPATH_IMAGE` inside the
`nohero` container (`none` models the unguarded lookup raising);
`divs` are the container's `div` descendants; `priceText` is the
`innerText` of the first `XPATH_PRICE` match, if any; `stats` / `infos`
are the first elements of class `rssc-stats-container` /
`rssc-info-container`, if any, as indexed slot lists where a missing
slot (`none`) makes the unguarded `find_element` raise. -/
structure DetailPage : Type where
  heroAnchorHref : Option String
  divs : List DivEl
  priceText : Option String
  stats : Option (List (Option StatEntry))
  infos : Option (List (Option InfoEntry))
deriving DecidableEq, Repr

/-- One entry of `links.items()` together with the page the driver lands
on when navigating to its URL. -/
structure ItemInput : Type where
  name : String
  url : String
  page : DetailPage
deriving DecidableEq, Repr

/-- The item-count cap constant of the source. -/
def LIMIT : Nat := 150

/-! ## Link harvesting (source lines 155-167) -/

/-- Body of the innermost harvesting loop: look up the first anchor under
the list item; on failure print a diagnostic and leave `links` unchanged,
on success record `(innerText, href)`. -/
def harvestItem (links : List (String × String)) (it : LItem) :
    List (String × String) :=
  match it.anchors.head? with
  | none => links
  | some a => dictInsert links a.text a.href

/-- The nested row/cell/list/item harvesting loops building `links`. -/
def harvest (t : VTable) : List (String × String) :=
  t.rows.foldl
    (fun l row =>
      row.cells.foldl
        (fun l2 cell =>
          cell.lists.foldl
            (fun l3 ul => ul.items.foldl harvestItem l3) l2)
        l)
    []

/-- All list items of the table in document order. -/
def flatItems (t : VTable) : List LItem :=
  (t.rows.map (fun row =>
    (row.cells.map (fun cell =>
      (cell.lists.map (fun ul => ul.items)).flatten)).flatten)).flatten

/-- The `(display name, URL)` pair a list item contributes, if any. -/
def anchorPair (it : LItem) : Option (String × String) :=
  it.anchors.head?.map (fun a => (a.text, a.href))

/-! ## Field extraction (source lines 181-240) -/

/-- Truncation of the image URL at the first case-insensitive `.png`
(source line 190); `none` models `str.index` raising `ValueError`. -/
def imageTrunc (href : String) : Option String :=
  (strFind (pyLower href) ".png").map (fun i => strTake href (i + 4))

/-- Image extraction (source lines 187-190): unguarded anchor lookup, then
truncation at `.png`. -/
def imageURL (page : DetailPage) : Except String String :=
  match page.heroAnchorHref with
  | none => .error "NoSuchElementException: image anchor"
  | some href =>
    match imageTrunc href with
    | none => .error "ValueError: substring not found"
    | some s => .ok s

/-- The `innerText` of the first hero `div` whose `data-source` attribute
equals `"class"` (the `for`/`if`/`break` scan of source lines 192-195). -/
def findClassDiv (divs : List DivEl) : Option String :=
  (divs.find? (fun d => d.dataSource == some "class")).map
    (fun d => d.innerText)

/-- The binding of the script-level variable `value` after the class scan:
a matching div rebinds it, otherwise whatever binding was in scope
survives (`none` = unbound). -/
def classBinding (divs : List DivEl) (valIn : Option Value) : Option Value :=
  match findClassDiv divs with
  | some t => some (Value.str t)
  | none => valIn

/-- Reading `value.split("\n")[1].split("(")[0]` (source line 196):
an unbound `value` raises a name error, a non-string stale binding has no
`split`, fewer than two lines is an index error. -/
def classText (v : Option Value) : Except String String :=
  match v with
  | none => .error "NameError: name value is not defined"
  | some (Value.str s) =>
    (match (strSplitOn s "\n")[1]? with
     | none => .error "IndexError: list index out of range"
     | some second => .ok ((strSplitOn second "(").headD ""))
  | some _ => .error "AttributeError: split"

/-- Price extraction (source lines 198-205): `ok none` models the `PRICE`
field staying absent, `ok (some n)` a parsed price. -/
def priceField : Option String → Except String (Option Int)
  | none => .ok none
  | some p =>
    if strContains p "$" then
      let p2 := strReplace (strReplace (strReplace p "," "") "\n" " ") "(" " "
      match strFind p2 "$" with
      | none => .error "ValueError: substring not found"
      | some idx =>
        match pyInt (strReplace ((strSplitOn (strDrop p2 idx) " ").headD "") "$" "") with
        | none => .error "ValueError: invalid literal for int"
        | some n => .ok (some n)
    else .ok none

/-- One stat index (source lines 210-220): the `name{i}`/`data{i}` lookups
raise when the slot is missing; a missing nested `div[1]/div[1]` merely
skips the field. -/
def statAt (entries : List (Option StatEntry)) (idx : Nat) :
    Except String (List (String × Value)) :=
  match entries[idx]? with
  | none => .error "NoSuchElementException: stat name or data"
  | some none => .error "NoSuchElementException: stat name or data"
  | some (some e) =>
    match e.bar.filledWidth with
    | none => .ok []
    | some w => .ok [(e.title, Value.int w)]

/-- Stat extraction (source lines 207-220): absent container contributes
nothing, otherwise indices 1 to 4 in order. -/
def statFields (o : Option (List (Option StatEntry))) :
    Except String (List (String × Value)) :=
  match o with
  | none => .ok []
  | some entries =>
    match statAt entries 0 with
    | .error e => .error e
    | .ok a =>
      match statAt entries 1 with
      | .error e => .error e
      | .ok b =>
        match statAt entries 2 with
        | .error e => .error e
        | .ok c =>
          match statAt entries 3 with
          | .error e => .error e
          | .ok d => .ok (a ++ b ++ c ++ d)

/-- Typing of one info value (source lines 232-239): empty text reads the
nested image and yields a boolean (`true` iff the identifier contains
`"Check"`), purely numeric text an integer, other text itself. -/
def infoValue (e : InfoEntry) : Except String Value :=
  if e.text = "" then
    match e.img with
    | none => .error "NoSuchElementException: info img"
    | some im => .ok (Value.bool (strContains im.dataImageName "Check"))
  else if pyIsNumeric e.text then .ok (Value.int (Int.ofNat (digitsToNat e.text)))
  else .ok (Value.str e.text)

/-- One info index (source lines 226-240): the `name{i}`/`data{i}` lookups
raise when the slot is missing; otherwise the typed value together with
the new binding of `value`. -/
def infoAt (entries : List (Option InfoEntry)) (idx : Nat) :
    Except String ((String × Value) × Value) :=
  match entries[idx]? with
  | none => .error "NoSuchElementException: info name or data"
  | some none => .error "NoSuchElementException: info name or data"
  | some (some e) =>
    match infoValue e with
    | .error er => .error er
    | .ok v => .ok ((e.title, v), v)

/-- Info extraction (source lines 222-240): absent container contributes
nothing and leaves the `value` binding untouched; otherwise indices 1 to 7
in order, the last one rebinding `value`. -/
def infoFields (o : Option (List (Option InfoEntry))) (valIn : Option Value) :
    Except String (List (String × Value) × Option Value) :=
  match o with
  | none => .ok ([], valIn)
  | some entries =>
    match infoAt entries 0 with
    | .error e => .error e
    | .ok p0 =>
      match infoAt entries 1 with
      | .error e => .error e
      | .ok p1 =>
        match infoAt entries 2 with
        | .error e => .error e
        | .ok p2 =>
          match infoAt entries 3 with
          | .error e => .error e
          | .ok p3 =>
            match infoAt entries 4 with
            | .error e => .error e
            | .ok p4 =>
              match infoAt entries 5 with
              | .error e => .error e
              | .ok p5 =>
                match infoAt entries 6 with
                | .error e => .error e
                | .ok p6 =>
                  .ok ([p0.1, p1.1, p2.1, p3.1, p4.1, p5.1, p6.1],
                    some p6.2)

/-! ## Per-item record assembly and the traversal loop (lines 177-244) -/

/-- Processing of one link (loop body, source lines 180-242): build the
record in source order (`link`, `image`, `CLASS`, optional `PRICE`, stat
fields, info fields). `valIn` is the binding of the script variable
`value` carried over from the previous iteration; the result carries the
binding out. Failing lookups are checked in source order, and a failure
discards the partial record (the script dies before `data[name]`). -/
def processItem (it : ItemInput) (valIn : Option Value) :
    Except String (Record × Option Value) :=
  match imageURL it.page with
  | .error e => .error e
  | .ok img =>
    let v1 := classBinding it.page.divs valIn
    match classText v1 with
    | .error e => .error e
    | .ok cls =>
      match priceField it.page.priceText with
      | .error e => .error e
      | .ok pr =>
        match statFields it.page.stats with
        | .error e => .error e
        | .ok sf =>
          match infoFields it.page.infos v1 with
          | .error e => .error e
          | .ok infv =>
            let r0 := dictInsert ([] : Record) "link" (Value.str it.url)
            let r1 := dictInsert r0 "image" (Value.str img)
            let r2 := dictInsert r1 "CLASS" (Value.str cls)
            let r3 := match pr with
              | some n => dictInsert r2 "PRICE" (Value.int n)
              | none => r2
            let r4 := sf.foldl (fun r p => dictInsert r p.1 p.2) r3
            let r5 := infv.1.foldl (fun r p => dictInsert r p.1 p.2) r4
            .ok (r5, infv.2)

/-- The traversal loop (source lines 177-244): `cnt` is incremented at the
top of the body, the item is fully processed and added to `data`, and only
then `if cnt > LIMIT: break` is evaluated. An uncaught exception ends the
run with the catalog built so far. Returns the catalog, the final `cnt`,
and the uncaught error, if any. -/
def runLoop : List ItemInput → Nat → Nat → Option Value → Catalog →
    Catalog × Nat × Option String
  | [], _, cnt, _, data => (data, cnt, none)
  | it :: rest, limit, cnt, val, data =>
    match processItem it val with
    | .error e => (data, cnt + 1, some e)
    | .ok (rec, val2) =>
      let data2 := dictInsert data it.name rec
      if cnt + 1 > limit then (data2, cnt + 1, none)
      else runLoop rest limit (cnt + 1) val2 data2

/-- The whole traversal, from `data = {}` and `cnt = 0`. -/
def runTraversal (items : List ItemInput) (limit : Nat) :
    Catalog × Nat × Option String :=
  runLoop items limit 0 none []

/-! ## Tabular view (source lines 253-258) -/

/-- Flattening the catalog: per entry a fresh dict seeded with the
`Vehicle` field, then every record field inserted in order. -/
def tabularView (data : Catalog) : List Record :=
  data.map (fun p =>
    p.2.foldl (fun r kv => dictInsert r kv.1 kv.2)
      [("Vehicle", Value.str p.1)])

/-! ## Concrete fixtures for witnesses and counterexamples -/

/-- A detail page with a class div, a price block, and no stat or info
containers. -/
def pageA : DetailPage :=
  { heroAnchorHref := some "https://img.example/a.png"
    divs := [⟨some "class", "Class\nSedans"⟩]
    priceText := some "$1,234,567 (approx.)"
    stats := none
    infos := none }

/-- A second well-formed page, without a price block. -/
def pageB : DetailPage :=
  { heroAnchorHref := some "https://img.example/b.PNG?rev=7"
    divs := [⟨none, "x"⟩, ⟨some "class", "Class\nSports (Classic)"⟩]
    priceText := none
    stats := none
    infos := none }

/-- A third well-formed page. -/
def pageC : DetailPage :=
  { heroAnchorHref := some "https://img.example/c.png"
    divs := [⟨some "class", "Class\nMotorcycles"⟩]
    priceText := some "No price listed"
    stats := none
    infos := none }

/-- A page whose hero container has no div with `data-source = "class"`. -/
def pageNoClass : DetailPage :=
  { heroAnchorHref := some "https://img.example/d.png"
    divs := [⟨some "type", "Type\nBoat"⟩]
    priceText := none
    stats := none
    infos := none }

/-- A page whose image URL contains no `.png` at all. -/
def pageBadImage : DetailPage :=
  { heroAnchorHref := some "https://img.example/e.jpg"
    divs := [⟨some "class", "Class\nVans"⟩]
    priceText := none
    stats := none
    infos := none }

/-- Three distinct well-formed items. -/
def itemA : ItemInput := ⟨"Car A", "https://wiki.example/A", pageA⟩

/-- Second demo item. -/
def itemB : ItemInput := ⟨"Car B", "https://wiki.example/B", pageB⟩

/-- Third demo item. -/
def itemC : ItemInput := ⟨"Car C", "https://wiki.example/C", pageC⟩

/-- An item whose page lacks the class div (processed after `itemA`, its
class read sees the stale `value` binding). -/
def itemNoClass : ItemInput := ⟨"Car D", "https://wiki.example/D", pageNoClass⟩

/-- An item whose image URL lacks `.png`. -/
def itemBadImage : ItemInput := ⟨"Car E", "https://wiki.example/E", pageBadImage⟩

/-- Decidable equality of failure-or-result values. -/
instance exceptDecEq {ε α : Type} [DecidableEq ε] [DecidableEq α] :
    DecidableEq (Except ε α) := fun x y =>
  match x, y with
  | .ok a, .ok b =>
    if h : a = b then isTrue (by rw [h])
    else isFalse (fun hh => h (Except.ok.inj hh))
  | .error a, .error b =>
    if h : a = b then isTrue (by rw [h])
    else isFalse (fun hh => h (Except.error.inj hh))
  | .ok _, .error _ => isFalse (fun hh => Except.noConfusion hh)
  | .error _, .ok _ => isFalse (fun hh => Except.noConfusion hh)

/-- The contribution of one stat slot: nothing when the filled-portion
element is absent, otherwise the labelled pixel width. -/
def statField (e : StatEntry) : List (String × Value) :=
  match e.bar.filledWidth with
  | none => []
  | some w => [(e.title, Value.int w)]

/-- A listing table with one row, one cell, one list and three list items,
the middle one without an anchor. -/
def demoTable : VTable :=
  ⟨[⟨[⟨[⟨[⟨[⟨"Car A", "https://wiki.example/A"⟩]⟩,
           ⟨[]⟩,
           ⟨[⟨"Car B", "https://wiki.example/B"⟩]⟩]⟩]⟩]⟩]⟩

/-! ## Helper lemmas on dicts -/

/-- Updating the value at key `k` does not change which keys occur. -/
lemma hasKey_map_update {α : Type} (d : List (String × α)) (k k2 : String)
    (v : α) :
    hasKey (d.map (fun p => if p.1 == k then (k, v) else p)) k2 = hasKey d k2 := by
  induction d with
  | nil => rfl
  | cons a d ih =>
    unfold hasKey at ih ⊢
    simp only [List.map_cons, List.any_cons]
    rw [ih]
    by_cases h : a.1 = k
    · simp [h]
    · simp [h]

/-- Key membership after a Python dict assignment. -/
lemma hasKey_dictInsert_eq {α : Type} (d : List (String × α)) (k k2 : String)
    (v : α) :
    hasKey (dictInsert d k v) k2 = (hasKey d k2 || (k == k2)) := by
  unfold dictInsert
  by_cases h : hasKey d k
  · rw [if_pos h, hasKey_map_update]
    by_cases hk : k = k2
    · subst hk; simp [h]
    · simp [hk]
  · rw [if_neg h]
    simp [hasKey]

/-- The assigned key is present afterwards. -/
lemma hasKey_dictInsert_self {α : Type} (d : List (String × α)) (k : String)
    (v : α) : hasKey (dictInsert d k v) k = true := by
  simp [hasKey_dictInsert_eq]

/-- Existing keys survive a dict assignment. -/
lemma hasKey_dictInsert_of {α : Type} (d : List (String × α)) (k k2 : String)
    (v : α) (h : hasKey d k2 = true) :
    hasKey (dictInsert d k v) k2 = true := by
  simp [hasKey_dictInsert_eq, h]

/-- A key absent before and different from the assigned one stays absent. -/
lemma hasKey_dictInsert_ne {α : Type} (d : List (String × α)) (k k2 : String)
    (v : α) (h : hasKey d k2 = false) (hne : k ≠ k2) :
    hasKey (dictInsert d k v) k2 = false := by
  simp [hasKey_dictInsert_eq, h, hne]

/-- Assigning a fresh key appends the pair. -/
lemma dictInsert_fresh {α : Type} (d : List (String × α)) (k : String) (v : α)
    (h : hasKey d k = false) : dictInsert d k v = d ++ [(k, v)] := by
  unfold dictInsert
  rw [if_neg (by simp [h])]

/-- Every entry of the updated dict is the assigned pair or an old entry. -/
lemma mem_dictInsert {α : Type} (d : List (String × α)) (k : String) (v : α)
    (p : String × α) (h : p ∈ dictInsert d k v) : p = (k, v) ∨ p ∈ d := by
  unfold dictInsert at h
  by_cases hk : hasKey d k
  · rw [if_pos hk] at h
    obtain ⟨q, hq, hfq⟩ := List.mem_map.mp h
    by_cases hq1 : q.1 = k
    · left; rw [← hfq]; simp [hq1]
    · right; rw [← hfq]; simpa [hq1] using hq
  · rw [if_neg hk] at h
    rcases List.mem_append.mp h with h1 | h1
    · right; exact h1
    · left; exact List.mem_singleton.mp h1

/-- Key membership over an append. -/
lemma hasKey_append {α : Type} (d1 d2 : List (String × α)) (k : String) :
    hasKey (d1 ++ d2) k = (hasKey d1 k || hasKey d2 k) := by
  simp [hasKey]

/-- A key present in the seed survives a fold of dict assignments. -/
lemma hasKey_foldl_dictInsert {α : Type} (l : List (String × α))
    (acc : List (String × α)) (k : String) (h : hasKey acc k = true) :
    hasKey (l.foldl (fun r p => dictInsert r p.1 p.2) acc) k = true := by
  induction l generalizing acc with
  | nil => exact h
  | cons a t ih =>
    exact ih (dictInsert acc a.1 a.2) (hasKey_dictInsert_of _ _ _ _ h)

/-- Folding dict assignments of pairwise-distinct fresh keys appends the
pairs in order. -/
lemma foldl_dictInsert_fresh {α : Type} (l : List (String × α)) :
    ∀ (acc : List (String × α)), (l.map Prod.fst).Nodup →
    (∀ k ∈ l.map Prod.fst, hasKey acc k = false) →
    l.foldl (fun r p => dictInsert r p.1 p.2) acc = acc ++ l := by
  induction l with
  | nil => intro acc _ _; simp
  | cons a t ih =>
    intro acc hnd hfresh
    have ha : hasKey acc a.1 = false := hfresh a.1 (by simp)
    have hstep : dictInsert acc a.1 a.2 = acc ++ [(a.1, a.2)] :=
      dictInsert_fresh acc a.1 a.2 ha
    simp only [List.foldl_cons, hstep]
    rw [ih (acc ++ [(a.1, a.2)]) (by simpa using hnd.of_cons)]
    · simp
    · intro k hk
      rw [hasKey_append]
      have h1 : hasKey acc k = false := hfresh k (by simp [hk])
      have h2 : a.1 ≠ k := by
        intro hak
        subst hak
        exact (List.nodup_cons.mp (by simpa using hnd)).1 hk
      simp only [h1, Bool.false_or]
      simp [hasKey, h2]

/-! ## Helper lemmas on substring search -/

/-- `findSub` soundness: the pattern occurs at the returned index. -/
lemma findSub_sound (pat : List Char) :
    ∀ (s : List Char) (i : Nat), findSub pat s = some i →
    pat.isPrefixOf (s.drop i) = true := by
  intro s
  induction s with
  | nil =>
    intro i h
    unfold findSub at h
    by_cases hp : pat.isPrefixOf ([] : List Char)
    · rw [if_pos hp] at h
      cases h
      simpa using hp
    · rw [if_neg hp] at h
      cases h
  | cons c t ih =>
    intro i h
    unfold findSub at h
    by_cases hp : pat.isPrefixOf (c :: t)
    · rw [if_pos hp] at h
      cases h
      simpa using hp
    · rw [if_neg hp] at h
      obtain ⟨j, hj, hji⟩ := Option.map_eq_some'.mp h
      subst hji
      simpa using ih j hj

/-- `findSub` minimality: the pattern occurs at no earlier index. -/
lemma findSub_min (pat : List Char) :
    ∀ (s : List Char) (i : Nat), findSub pat s = some i →
    ∀ j, j < i → pat.isPrefixOf (s.drop j) = false := by
  intro s
  induction s with
  | nil =>
    intro i h j hj
    unfold findSub at h
    by_cases hp : pat.isPrefixOf ([] : List Char)
    · rw [if_pos hp] at h
      cases h
      omega
    · rw [if_neg hp] at h
      cases h
  | cons c t ih =>
    intro i h j hj
    unfold findSub at h
    by_cases hp : pat.isPrefixOf (c :: t)
    · rw [if_pos hp] at h
      cases h
      omega
    · rw [if_neg hp] at h
      obtain ⟨i2, hi2, hii⟩ := Option.map_eq_some'.mp h
      subst hii
      match j with
      | 0 =>
        rw [List.drop_zero]
        cases hb : pat.isPrefixOf (c :: t)
        · rfl
        · exact absurd hb hp
      | j2 + 1 => simpa using ih i2 hi2 j2 (by omega)

/-! ## Helper lemmas on the harvesting loops -/

/-- Folding over a flattened list of lists is the nested fold. -/
lemma foldl_flatten_eq {α β : Type} (f : β → α → β) :
    ∀ (L : List (List α)) (b : β),
    L.flatten.foldl f b = L.foldl (fun acc l => l.foldl f acc) b := by
  intro L
  induction L with
  | nil => intro b; rfl
  | cons l L ih =>
    intro b
    simp only [List.flatten_cons, List.foldl_append, List.foldl_cons]
    exact ih (l.foldl f b)

/-- One cell's flattened items fold like its nested list/item loops. -/
lemma cell_fold_eq (cell : Cell) (acc : List (String × String)) :
    ((cell.lists.map (fun ul => ul.items)).flatten).foldl harvestItem acc =
    cell.lists.foldl (fun a ul => ul.items.foldl harvestItem a) acc := by
  rw [foldl_flatten_eq, List.foldl_map]

/-- One row's flattened items fold like its nested cell/list/item loops. -/
lemma row_fold_eq (row : Row) (acc : List (String × String)) :
    ((row.cells.map (fun cell =>
      (cell.lists.map (fun ul => ul.items)).flatten)).flatten).foldl
        harvestItem acc =
    row.cells.foldl (fun a cell =>
      cell.lists.foldl (fun a2 ul => ul.items.foldl harvestItem a2) a) acc := by
  rw [foldl_flatten_eq, List.foldl_map]
  simp only [cell_fold_eq]

/-- The nested harvesting loops equal one fold over the items in document
order. -/
lemma harvest_eq_foldl (t : VTable) :
    harvest t = (flatItems t).foldl harvestItem [] := by
  unfold harvest flatItems
  rw [foldl_flatten_eq, List.foldl_map]
  simp only [row_fold_eq]

/-- Folding the per-item harvest over items whose anchored display names
are pairwise distinct and absent from the accumulator appends exactly the
anchored `(name, href)` pairs, skipping anchor-less items. -/
lemma foldl_harvestItem_eq :
    ∀ (l : List LItem) (acc : List (String × String)),
    ((l.filterMap anchorPair).map Prod.fst).Nodup →
    (∀ k ∈ (l.filterMap anchorPair).map Prod.fst, hasKey acc k = false) →
    l.foldl harvestItem acc = acc ++ l.filterMap anchorPair := by
  intro l
  induction l with
  | nil => intro acc _ _; simp
  | cons it t ih =>
    intro acc hnd hfresh
    cases h : it.anchors.head? with
    | none =>
      have hap : anchorPair it = none := by simp [anchorPair, h]
      have hstep : harvestItem acc it = acc := by
        unfold harvestItem
        rw [h]
      simp only [List.filterMap_cons, hap] at hnd hfresh
      simp only [List.foldl_cons, List.filterMap_cons, hap, hstep]
      exact ih acc hnd hfresh
    | some a =>
      have hap : anchorPair it = some (a.text, a.href) := by
        simp [anchorPair, h]
      simp only [List.filterMap_cons, hap] at hnd hfresh
      have hstep : harvestItem acc it = acc ++ [(a.text, a.href)] := by
        unfold harvestItem
        rw [h]
        exact dictInsert_fresh acc a.text a.href (hfresh a.text (by simp))
      simp only [List.foldl_cons, List.filterMap_cons, hap, hstep]
      rw [ih (acc ++ [(a.text, a.href)])]
      · simp
      · exact (List.nodup_cons.mp (by simpa using hnd)).2
      · intro k hk
        rw [hasKey_append]
        have h1 : hasKey acc k = false := hfresh k (by simp [hk])
        have h2 : a.text ≠ k := by
          intro heq
          rw [heq] at hnd
          exact (List.nodup_cons.mp (by simpa using hnd)).1 hk
        simp only [h1, Bool.false_or]
        simp [hasKey, h2]

/-! ## Helper lemmas on per-item processing -/

/-- A successfully built record always carries `link`, `image` and
`CLASS`: the three assignments are unconditional and later assignments
only preserve keys. -/
lemma processItem_keys (it : ItemInput) (v : Option Value) (r : Record)
    (v2 : Option Value) (h : processItem it v = .ok (r, v2)) :
    hasKey r "link" = true ∧ hasKey r "image" = true ∧
    hasKey r "CLASS" = true := by
  unfold processItem at h
  cases h1 : imageURL it.page with
  | error e => simp only [h1] at h; exact Except.noConfusion h
  | ok img =>
    simp only [h1] at h
    cases h2 : classText (classBinding it.page.divs v) with
    | error e => simp only [h2] at h; exact Except.noConfusion h
    | ok cls =>
      simp only [h2] at h
      cases h3 : priceField it.page.priceText with
      | error e => simp only [h3] at h; exact Except.noConfusion h
      | ok pr =>
        simp only [h3] at h
        cases h4 : statFields it.page.stats with
        | error e => simp only [h4] at h; exact Except.noConfusion h
        | ok sf =>
          simp only [h4] at h
          cases h5 : infoFields it.page.infos (classBinding it.page.divs v) with
          | error e => simp only [h5] at h; exact Except.noConfusion h
          | ok infv =>
            simp only [h5, Except.ok.injEq, Prod.mk.injEq] at h
            obtain ⟨hr, _⟩ := h
            subst hr
            refine ⟨?_, ?_, ?_⟩ <;>
              apply hasKey_foldl_dictInsert <;>
              apply hasKey_foldl_dictInsert <;>
              cases pr <;>
              simp [dictInsert, hasKey, hasKey_dictInsert_eq]

/-- When some hero div matches `data-source = "class"`, the carried-over
binding of `value` is irrelevant: the whole item computation agrees with
the one started from an unbound `value`. -/
lemma processItem_val_congr (it : ItemInput) (v : Option Value) (t : String)
    (h : findClassDiv it.page.divs = some t) :
    processItem it v = processItem it none := by
  unfold processItem classBinding
  rw [h]

/-- A successful item computation started from an unbound `value` implies
the page has a matching class div (otherwise the `CLASS` read fails). -/
lemma processItem_none_ok_classDiv (it : ItemInput)
    (h : isOkE (processItem it none) = true) :
    ∃ t, findClassDiv it.page.divs = some t := by
  cases hc : findClassDiv it.page.divs with
  | some t => exact ⟨t, rfl⟩
  | none =>
    exfalso
    unfold processItem at h
    cases h1 : imageURL it.page with
    | error e =>
      simp only [h1, isOkE] at h
      exact Bool.noConfusion h
    | ok img =>
      have hbind : classBinding it.page.divs none = none := by
        unfold classBinding
        rw [hc]
      have hct : classText (classBinding it.page.divs none) =
          .error "NameError: name value is not defined" := by
        rw [hbind]
        rfl
      simp only [h1, hct, isOkE] at h
      exact Bool.noConfusion h

/-- Counting lemma for the traversal loop: from a state with `cnt ≤ limit`
and more remaining items than the cap allows, every iteration succeeds
and adds a fresh entry, and the loop stops with `cnt = limit + 1`, having
added `limit + 1 - cnt` entries. -/
lemma runLoop_count :
    ∀ (items : List ItemInput) (limit cnt : Nat) (val : Option Value)
      (data : Catalog),
    (∀ it ∈ items, isOkE (processItem it none) = true) →
    (items.map (fun it => it.name)).Nodup →
    (∀ it ∈ items, hasKey data it.name = false) →
    cnt ≤ limit →
    limit - cnt < items.length →
    (runLoop items limit cnt val data).1.length = data.length + (limit + 1 - cnt) ∧
    (runLoop items limit cnt val data).2.1 = limit + 1 ∧
    (runLoop items limit cnt val data).2.2 = none := by
  intro items
  induction items with
  | nil =>
    intro limit cnt val data _ _ _ hle hlt
    simp only [List.length_nil] at hlt
    exact absurd hlt (by omega)
  | cons it rest ih =>
    intro limit cnt val data hgood hnd hfresh hle hlt
    obtain ⟨t, ht⟩ := processItem_none_ok_classDiv it (hgood it (by simp))
    have hcong := processItem_val_congr it val t ht
    cases hpi : processItem it none with
    | error e =>
      exfalso
      have hg := hgood it (by simp)
      rw [hpi] at hg
      exact Bool.noConfusion hg
    | ok rv =>
      obtain ⟨rec, val2⟩ := rv
      have hstep : processItem it val = .ok (rec, val2) := by rw [hcong, hpi]
      have hlen2 : (dictInsert data it.name rec).length = data.length + 1 := by
        rw [dictInsert_fresh _ _ _ (hfresh it (by simp))]
        simp
      simp only [runLoop, hstep]
      by_cases hbr : cnt + 1 > limit
      · rw [if_pos hbr]
        have hcl : cnt = limit := by omega
        subst hcl
        refine ⟨?_, ?_, rfl⟩
        · simp only [hlen2]
          omega
        · rfl
      · rw [if_neg hbr]
        have hnd2 : (rest.map (fun it => it.name)).Nodup :=
          (List.nodup_cons.mp (by simpa using hnd)).2
        have hnotin : it.name ∉ rest.map (fun it => it.name) :=
          (List.nodup_cons.mp (by simpa using hnd)).1
        obtain ⟨ihl, ihc, ihe⟩ :=
          ih limit (cnt + 1) val2 (dictInsert data it.name rec)
            (fun it2 h2 => hgood it2 (by simp [h2]))
            hnd2
            (fun it2 h2 => by
              apply hasKey_dictInsert_ne
              · exact hfresh it2 (by simp [h2])
              · intro heq
                exact hnotin (by rw [heq]; exact List.mem_map_of_mem _ h2))
            (by omega)
            (by simp only [List.length_cons] at hlt; omega)
        refine ⟨?_, ihc, ihe⟩
        rw [ihl, hlen2]
        omega

/-- Invariant lemma for the traversal loop: every record of the resulting
catalog either was there initially or is a successfully built record. -/
lemma runLoop_keys :
    ∀ (items : List ItemInput) (limit cnt : Nat) (val : Option Value)
      (data : Catalog),
    (∀ p ∈ data, hasKey p.2 "link" = true ∧ hasKey p.2 "image" = true ∧
      hasKey p.2 "CLASS" = true) →
    ∀ p ∈ (runLoop items limit cnt val data).1,
    hasKey p.2 "link" = true ∧ hasKey p.2 "image" = true ∧
    hasKey p.2 "CLASS" = true := by
  intro items
  induction items with
  | nil =>
    intro limit cnt val data hd p hp
    simp only [runLoop] at hp
    exact hd p hp
  | cons it rest ih =>
    intro limit cnt val data hd p hp
    cases hpi : processItem it val with
    | error e =>
      simp only [runLoop, hpi] at hp
      exact hd p hp
    | ok rv =>
      obtain ⟨rec, val2⟩ := rv
      have hkeys := processItem_keys it val rec val2 hpi
      have hd2 : ∀ q ∈ dictInsert data it.name rec,
          hasKey q.2 "link" = true ∧ hasKey q.2 "image" = true ∧
          hasKey q.2 "CLASS" = true := by
        intro q hq
        rcases mem_dictInsert data it.name rec q hq with hcase | hcase
        · rw [hcase]
          exact hkeys
        · exact hd q hcase
      simp only [runLoop, hpi] at hp
      by_cases hbr : cnt + 1 > limit
      · rw [if_pos hbr] at hp
        exact hd2 p hp
      · rw [if_neg hbr] at hp
        exact ih limit (cnt + 1) val2 _ hd2 p hp

/-! ## Claim theorems -/

/-- Claim C2 (amended): for an empty info text the extractor reads the
nested image identifier and returns boolean true exactly when that
identifier CONTAINS the substring `"Check"` — so `"Check-Yes"` yields
true, but `"Check-No"` ALSO yields true, since `"Check"` occurs in it;
false arises only when `"Check"` is absent (e.g. `"Cross-No"`); non-empty
purely numeric text yields the integer, other non-empty text is returned
unchanged. -/
theorem infoValue_spec (title id t : String) (im : Option InfoImg) :
    infoValue ⟨title, "", some ⟨id⟩⟩ =
      .ok (Value.bool (strContains id "Check")) ∧
    (t ≠ "" → pyIsNumeric t = true →
      infoValue ⟨title, t, im⟩ = .ok (Value.int (Int.ofNat (digitsToNat t)))) ∧
    (t ≠ "" → pyIsNumeric t = false →
      infoValue ⟨title, t, im⟩ = .ok (Value.str t)) ∧
    infoValue ⟨title, "", some ⟨"Cross-No"⟩⟩ = .ok (Value.bool false) := by
  refine ⟨rfl, ?_, ?_, rfl⟩
  · intro ht hn
    simp [infoValue, ht, hn]
  · intro ht hn
    simp [infoValue, ht, hn]

/-- Claim C2, counterexample to the claim as stated: the claim calls the
check-marker substring "absent" from the identifier `"Check-No"` and
predicts boolean false there, but the source tests `"Check" in
element.get_attribute("data-image-name")`, and `"Check"` is a substring
of `"Check-No"`, so the extractor returns true. -/
theorem infoValue_checkNo_true :
    infoValue ⟨"Bulletproof", "", some ⟨"Check-No"⟩⟩ = .ok (Value.bool true) ∧
    infoValue ⟨"Bulletproof", "", some ⟨"Check-No"⟩⟩ ≠ .ok (Value.bool false) := by
  exact ⟨rfl, by decide⟩

/-- Witness for `infoValue_spec` at concrete inputs: `"42"` parses to the
integer 42 and `"Rear-wheel drive"` stays text. -/
theorem infoValue_spec_witness :
    infoValue ⟨"Seats", "42", none⟩ = .ok (Value.int 42) ∧
    infoValue ⟨"Drive", "Rear-wheel drive", none⟩ =
      .ok (Value.str "Rear-wheel drive") :=
  ⟨(infoValue_spec "Seats" "x" "42" none).2.1 (by decide) (by decide),
   (infoValue_spec "Drive" "x" "Rear-wheel drive" none).2.2.1 (by decide)
     (by decide)⟩

/-- Claim C3 (confirmed): for a URL whose lowercasing contains `.png`,
the truncation keeps the prefix through the FIRST such occurrence
inclusive — 4 characters past its start — and drops the rest: the
returned index is sound (the pattern occurs there) and minimal (it occurs
nowhere earlier), and the concrete example of the spec evaluates as
stated. -/
theorem imageTrunc_spec :
    (∀ (url : String) (i : Nat), strFind (pyLower url) ".png" = some i →
      imageTrunc url = some (strTake url (i + 4)) ∧
      ".png".data.isPrefixOf ((pyLower url).data.drop i) = true ∧
      (∀ j, j < i → ".png".data.isPrefixOf ((pyLower url).data.drop j) = false)) ∧
    imageTrunc "https://img.example/car.PNG?revision=3" =
      some "https://img.example/car.PNG" := by
  constructor
  · intro url i h
    refine ⟨?_, findSub_sound _ _ _ h, fun j hj => findSub_min _ _ _ h j hj⟩
    unfold imageTrunc
    rw [h]
    rfl
  · rfl

/-- Witness for `imageTrunc_spec`: the pattern sits at index 3 of
`"car.png"` and the truncation keeps the whole name. -/
theorem imageTrunc_spec_witness :
    imageTrunc "car.png?x=1" = some (strTake "car.png?x=1" (3 + 4)) :=
  ((imageTrunc_spec.1 "car.png?x=1" 3 (by decide))).1

/-- Claim C4 (confirmed): the price text `"$1,234,567 (approx.)"` has its
commas removed and parenthesis blanked, the token after the `$` is
parsed, and the integer 1234567 lands under `PRICE` in the record of a
page carrying that text; text without a `$`, or an absent price element,
leaves the `PRICE` field absent. -/
theorem priceField_spec :
    priceField (some "$1,234,567 (approx.)") = .ok (some 1234567) ∧
    priceField none = .ok none ∧
    (∀ p : String, strContains p "$" = false → priceField (some p) = .ok none) ∧
    dictLookup (recordOf (processItem itemA none)) "PRICE" =
      some (Value.int 1234567) ∧
    dictLookup (recordOf (processItem itemC none)) "PRICE" = none := by
  refine ⟨rfl, rfl, ?_, rfl, rfl⟩
  intro p hp
  unfold priceField
  simp [hp]

/-- Witness for `priceField_spec`: a price text with no currency symbol
leaves the field absent. -/
theorem priceField_spec_witness :
    priceField (some "No price listed") = .ok none :=
  priceField_spec.2.2.1 "No price listed" (by decide)

/-- Claim C8 (confirmed): a missing stats container contributes no stat
fields at all, and with the container present and all four name/data
slots found, each index contributes its labelled pixel width exactly when
its nested filled-portion element is present — a missing filled portion
skips only that index, the others are still processed, in order. -/
theorem statFields_spec (e1 e2 e3 e4 : StatEntry) :
    statFields none = .ok [] ∧
    statFields (some [some e1, some e2, some e3, some e4]) =
      .ok (statField e1 ++ statField e2 ++ statField e3 ++ statField e4) := by
  refine ⟨rfl, ?_⟩
  cases h1 : e1.bar.filledWidth <;> cases h2 : e2.bar.filledWidth <;>
    cases h3 : e3.bar.filledWidth <;> cases h4 : e4.bar.filledWidth <;>
    simp [statFields, statAt, statField, h1, h2, h3, h4]

/-- Witness for `statFields_spec`: four present slots of which the second
and fourth lack the filled-portion element yield exactly the first and
third fields. -/
theorem statFields_spec_witness :
    statFields (some [some ⟨"Speed", ⟨some 120⟩⟩, some ⟨"Acceleration", ⟨none⟩⟩,
        some ⟨"Braking", ⟨some 80⟩⟩, some ⟨"Handling", ⟨none⟩⟩]) =
      .ok [("Speed", Value.int 120), ("Braking", Value.int 80)] :=
  (statFields_spec ⟨"Speed", ⟨some 120⟩⟩ ⟨"Acceleration", ⟨none⟩⟩
    ⟨"Braking", ⟨some 80⟩⟩ ⟨"Handling", ⟨none⟩⟩).2

/-- Claim C5 (confirmed): list items without an anchor are skipped
(diagnostic only, no entry, no abort) and the remaining items' anchors
are all recorded as `(display name, URL)` pairs in document order —
stated for tables whose anchored display names are pairwise distinct,
dict-key overwrite being the only deviation otherwise. -/
theorem harvest_spec (t : VTable)
    (hnd : (((flatItems t).filterMap anchorPair).map Prod.fst).Nodup) :
    harvest t = (flatItems t).filterMap anchorPair := by
  rw [harvest_eq_foldl]
  have h := foldl_harvestItem_eq (flatItems t) [] hnd (fun k _ => rfl)
  simpa using h

/-- Witness for `harvest_spec`: a table with an anchor-less middle item
yields exactly the two anchored entries, in order. -/
theorem harvest_spec_witness :
    harvest demoTable =
      [("Car A", "https://wiki.example/A"), ("Car B", "https://wiki.example/B")] :=
  harvest_spec demoTable (by decide)

/-- Claim C1, counterexample to the claim as stated: with cap 1 and two
discovered links, BOTH items are fully processed and added — the source
increments `cnt`, fully processes the item, adds it to `data`, and only
then evaluates `cnt > LIMIT`, so the cap admits `LIMIT + 1` items, not
`LIMIT`. -/
theorem cap_one_admits_two :
    (runTraversal [itemA, itemB] 1).1.length = 2 ∧
    (runTraversal [itemA, itemB] 1).2.1 = 2 ∧
    ¬(runTraversal [itemA, itemB] 1).1.length = 1 := by
  exact ⟨rfl, rfl, by decide⟩

/-- Claim C1 (amended): the cap check `cnt > LIMIT` is applied after
incrementing the counter AND after full processing and insertion of the
item, so for cap = N the traversal fully processes and adds exactly N + 1
items whenever more than N links (with distinct display names, each
processable) were discovered, and ends without error. -/
theorem cap_processes_limit_plus_one (items : List ItemInput) (limit : Nat)
    (hgood : ∀ it ∈ items, isOkE (processItem it none) = true)
    (hnd : (items.map (fun it => it.name)).Nodup)
    (hlen : limit < items.length) :
    (runTraversal items limit).1.length = limit + 1 ∧
    (runTraversal items limit).2.1 = limit + 1 ∧
    (runTraversal items limit).2.2 = none := by
  unfold runTraversal
  obtain ⟨hl, hc, he⟩ :=
    runLoop_count items limit 0 none [] hgood hnd (fun it _ => rfl)
      (by omega) (by omega)
  exact ⟨by simpa using hl, hc, he⟩

/-- Witness for `cap_processes_limit_plus_one`: three processable items
and cap 1 yield a catalog of exactly 2 entries. -/
theorem cap_processes_limit_plus_one_witness :
    (runTraversal [itemA, itemB, itemC] 1).1.length = 2 ∧
    (runTraversal [itemA, itemB, itemC] 1).2.1 = 2 ∧
    (runTraversal [itemA, itemB, itemC] 1).2.2 = none :=
  cap_processes_limit_plus_one [itemA, itemB, itemC] 1 (by decide) (by decide)
    (by decide)

/-- Claim C6, counterexample to the claim as stated: a page whose hero
container has NO div with `data-source = "class"` is processed without
any exception when a previous iteration left a string binding in the
script-level `value` variable — the stale text is reused and even lands
in the record's `CLASS` field. -/
theorem staleClass_no_raise :
    findClassDiv itemNoClass.page.divs = none ∧
    isOkE (processItem itemNoClass (some (Value.str "Class\nSedans"))) = true ∧
    dictLookup
        (recordOf (processItem itemNoClass (some (Value.str "Class\nSedans"))))
        "CLASS" =
      some (Value.str "Sedans") := by
  exact ⟨rfl, rfl, rfl⟩

/-- Claim C6 (amended): with no matching class div, the class read raises
the unbound-name error only when the `value` variable has no binding from
an earlier iteration (as on the first processed item, modelled by an
unbound incoming `value`); with a stale binding the read instead operates
on the stale value: a string binding of at least two lines is silently
reused (its second line stored as `CLASS`), while a one-line string
binding fails the `[1]` indexing (IndexError) and a non-string binding —
an int or bool left by the info loop — has no `split` (AttributeError).
(At module scope the unbound read raises `NameError`, of which
`UnboundLocalError` is the function-scope subclass.) -/
theorem classRead_unbound_spec (n u href : String) (page : DetailPage)
    (i : Nat)
    (h1 : page.heroAnchorHref = some href)
    (h2 : strFind (pyLower href) ".png" = some i)
    (h3 : findClassDiv page.divs = none) :
    processItem ⟨n, u, page⟩ none =
      .error "NameError: name value is not defined" ∧
    (∀ s second : String, (strSplitOn s "\n")[1]? = some second →
      classText (classBinding page.divs (some (Value.str s))) =
        .ok ((strSplitOn second "(").headD "")) ∧
    (∀ s : String, (strSplitOn s "\n")[1]? = none →
      classText (classBinding page.divs (some (Value.str s))) =
        .error "IndexError: list index out of range") ∧
    (∀ z : Int, classText (classBinding page.divs (some (Value.int z))) =
      .error "AttributeError: split") ∧
    (∀ b : Bool, classText (classBinding page.divs (some (Value.bool b))) =
      .error "AttributeError: split") := by
  have hbindAll : ∀ v : Option Value, classBinding page.divs v = v := by
    intro v
    unfold classBinding
    rw [h3]
  refine ⟨?_, ?_, ?_, ?_, ?_⟩
  · have himg : imageURL page = .ok (strTake href (i + 4)) := by
      unfold imageURL imageTrunc
      simp only [h1, h2]
      rfl
    have hct : classText (classBinding page.divs none) =
        .error "NameError: name value is not defined" := by
      rw [hbindAll]
      rfl
    unfold processItem
    simp only [himg, hct]
  · intro s second hs
    rw [hbindAll]
    unfold classText
    simp only [hs]
  · intro s hs
    rw [hbindAll]
    unfold classText
    simp only [hs]
  · intro z
    rw [hbindAll]
    rfl
  · intro b
    rw [hbindAll]
    rfl

/-- Witness for `classRead_unbound_spec`: on the first item (unbound
`value`), the class-div-less page makes the whole item computation fail
with the unbound-name error; the same page visited with a stale boolean
binding (as left by an icon-encoded seventh info slot) fails the class
read with the no-`split` error instead; a stale one-line string fails
the `[1]` indexing. -/
theorem classRead_unbound_spec_witness :
    processItem ⟨"Car D", "https://wiki.example/D", pageNoClass⟩ none =
      .error "NameError: name value is not defined" ∧
    classText (classBinding pageNoClass.divs (some (Value.bool true))) =
      .error "AttributeError: split" ∧
    classText (classBinding pageNoClass.divs (some (Value.str "Sedans"))) =
      .error "IndexError: list index out of range" ∧
    classText (classBinding pageNoClass.divs (some (Value.str "Class\nSedans"))) =
      .ok "Sedans" :=
  ⟨(classRead_unbound_spec "Car D" "https://wiki.example/D"
      "https://img.example/d.png" pageNoClass 21 (by decide) (by decide)
      (by decide)).1,
   (classRead_unbound_spec "Car D" "https://wiki.example/D"
      "https://img.example/d.png" pageNoClass 21 (by decide) (by decide)
      (by decide)).2.2.2.2 true,
   (classRead_unbound_spec "Car D" "https://wiki.example/D"
      "https://img.example/d.png" pageNoClass 21 (by decide) (by decide)
      (by decide)).2.2.1 "Sedans" (by decide),
   (classRead_unbound_spec "Car D" "https://wiki.example/D"
      "https://img.example/d.png" pageNoClass 21 (by decide) (by decide)
      (by decide)).2.1 "Class\nSedans" "Sedans" (by decide)⟩

/-- Claim C7, counterexample to the claim as stated: the `CLASS`
assignment at source line 196 is unconditional, so even the record of a
page WITHOUT any `data-source = "class"` div reaches the catalog with a
`CLASS` field (filled from the stale `value` binding); no catalog record
ever lacks it, contradicting "appearing for some records and absent from
others depending on the page". -/
theorem class_not_conditional_demo :
    findClassDiv itemNoClass.page.divs = none ∧
    (dictLookup (runTraversal [itemA, itemNoClass] LIMIT).1 "Car D").map
        (fun r => hasKey r "CLASS") = some true ∧
    ∀ p ∈ (runTraversal [itemA, itemNoClass] LIMIT).1,
      hasKey p.2 "CLASS" = true := by
  exact ⟨rfl, rfl, by decide⟩

/-- Claim C7 (amended): every record added to the Catalog contains the
fields `link`, `image` AND `CLASS` — all three assignments are
unconditional, and an item failing before them never reaches the catalog;
only `PRICE`, the stat fields and the info fields are conditional. -/
theorem catalog_records_core_fields (items : List ItemInput) (limit : Nat)
    (p : String × Record) (hp : p ∈ (runTraversal items limit).1) :
    hasKey p.2 "link" = true ∧ hasKey p.2 "image" = true ∧
    hasKey p.2 "CLASS" = true :=
  runLoop_keys items limit 0 none []
    (fun q hq => absurd hq (List.not_mem_nil q)) p hp

/-- Witness for `catalog_records_core_fields` at a concrete run. -/
theorem catalog_records_core_fields_witness :
    hasKey (recordOf (processItem itemA none)) "link" = true ∧
    hasKey (recordOf (processItem itemA none)) "image" = true ∧
    hasKey (recordOf (processItem itemA none)) "CLASS" = true :=
  catalog_records_core_fields [itemA] LIMIT
    ("Car A", recordOf (processItem itemA none)) (by decide)

/-- Claim C9, counterexample to the claim as stated: a catalog record that
itself contains a field named `Vehicle` overwrites the leading `Vehicle`
entry of the flat record, whose value is then NOT the Catalog key — the
produced flat record is not the key-led extension the claim describes. -/
theorem tabular_vehicle_collision :
    tabularView [("Car A", [("Vehicle", Value.str "Car X")])] =
      [[("Vehicle", Value.str "Car X")]] ∧
    tabularView [("Car A", [("Vehicle", Value.str "Car X")])] ≠
      [("Vehicle", Value.str "Car A") :: [("Vehicle", Value.str "Car X")]] := by
  exact ⟨rfl, by decide⟩

/-- Claim C9 (amended): for every catalog entry whose record has pairwise
distinct field names none of which is `Vehicle`, the derived flat record
is a fresh dict whose first field is `Vehicle` set to the Catalog key
followed by all the record's fields in original order; the derivation is
a pure map over the catalog (one fresh dict per entry, the catalog itself
untouched). A record field named `Vehicle` instead overwrites the leading
entry's value. -/
theorem tabularView_spec (data : Catalog)
    (h : ∀ p ∈ data, (p.2.map Prod.fst).Nodup ∧ hasKey p.2 "Vehicle" = false) :
    tabularView data =
      data.map (fun p => ("Vehicle", Value.str p.1) :: p.2) := by
  unfold tabularView
  apply List.map_congr_left
  intro p hp
  obtain ⟨hnd, hv⟩ := h p hp
  unfold hasKey at hv
  rw [List.any_eq_false] at hv
  have hfold := foldl_dictInsert_fresh p.2 [("Vehicle", Value.str p.1)] hnd ?_
  · simpa using hfold
  · intro k hk
    obtain ⟨q, hq, hq1⟩ := List.mem_map.mp hk
    have hqv : ¬(q.1 == "Vehicle") = true := hv q hq
    have : ¬("Vehicle" == k) = true := by
      intro hb
      apply hqv
      rw [hq1]
      simpa using (beq_iff_eq.mp hb).symm
    simp [hasKey, this]

/-- Witness for `tabularView_spec` at a concrete catalog. -/
theorem tabularView_spec_witness :
    tabularView [("Car A", [("link", Value.str "u"), ("PRICE", Value.int 5)])] =
      [[("Vehicle", Value.str "Car A"), ("link", Value.str "u"),
        ("PRICE", Value.int 5)]] :=
  tabularView_spec [("Car A", [("link", Value.str "u"), ("PRICE", Value.int 5)])]
    (by decide)

/-- Claim C10 (confirmed): an item whose hero-image URL contains no
case-insensitive `.png` makes the truncation's substring search raise at
source line 190, before the `data[name]` insertion at line 242, so the
loop ends with the catalog exactly as it was — in particular without any
entry for that item if none existed before. -/
theorem badImage_aborts_spec (bad : ItemInput) (rest : List ItemInput)
    (limit cnt : Nat) (val : Option Value) (data : Catalog) (href : String)
    (h1 : bad.page.heroAnchorHref = some href)
    (h2 : strFind (pyLower href) ".png" = none) :
    runLoop (bad :: rest) limit cnt val data =
      (data, cnt + 1, some "ValueError: substring not found") ∧
    (hasKey data bad.name = false →
      hasKey (runLoop (bad :: rest) limit cnt val data).1 bad.name = false) := by
  have himg : imageURL bad.page = .error "ValueError: substring not found" := by
    unfold imageURL imageTrunc
    simp only [h1, h2]
    rfl
  have hpi : processItem bad val = .error "ValueError: substring not found" := by
    unfold processItem
    simp only [himg]
  constructor
  · simp only [runLoop, hpi]
  · intro hk
    simp only [runLoop, hpi]
    exact hk

/-- Witness for `badImage_aborts_spec`: the `.jpg`-imaged item aborts the
run at once, leaving the catalog empty. -/
theorem badImage_aborts_spec_witness :
    runLoop [itemBadImage] LIMIT 0 none [] =
      ([], 1, some "ValueError: substring not found") ∧
    (hasKey ([] : Catalog) itemBadImage.name = false →
      hasKey (runLoop [itemBadImage] LIMIT 0 none []).1 itemBadImage.name =
        false) :=
  badImage_aborts_spec itemBadImage [] LIMIT 0 none []
    "https://img.example/e.jpg" rfl rfl
